import Mathlib

/-!
# Verification of the nur.cn crawl pipeline (`sc.py`)

Shallow embedding of the page-result consumption pipeline of `sc.py`:
the URL filter, the dedup ledger (`visited_urls` / `is_duplicate`),
the content extractor (`extract_content`), the incremental writer
(`save_single_txt`), ledger seeding (`load_existing_urls`), the
aggregator (`save_final_dataset`) and the orchestrator loop of
`deep_crawl_nur`.

Modelling conventions:
* Python strings are Lean `String`s; Python `len`, slicing and the
  `in` / `endswith` tests operate on code points, matched here by
  working on `String.data` (a `List Char` of code points).
* The external crawler's lazy stream is a `List CrawlResult`; raw
  markup is abstracted by `Html`, which records the truthiness of the
  raw markup string together with the text that BeautifulSoup would
  deliver for the two queried elements (`h2.tt` and
  `div.view_p.mazmun`).
* Wall-clock reads (`datetime.now()`) are an oracle `clock : Nat → String`
  indexed by the running result counter, plus explicit parameters for
  the two reads in `save_final_dataset`.
* File-system effects (the per-article txt writes) and extractor
  invocations are recorded in an event trace `RunEvent`, so that
  "never reaches the extractor" and "no file is written" are statable.
-/

/-- One extracted article, the dict built at `sc.py:46-52`.
`content_length` is the derived `len(content)` field. -/
structure ArticleRecord where
  url : String
  title : String
  content : String
  crawl_time : String
  content_length : Nat
deriving DecidableEq

/-- Abstraction of one page's raw markup as seen by `extract_content`:
`nonEmpty` is the Python truthiness of `html_content` (`False` for
`None` or the empty string); `titleElem` is the stripped text of
`soup.find('h2', class_='tt')` when that element exists; `bodyElem` is
the text of `soup.find('div', class_='view_p mazmun')` joined with
newline separators and stripped, when that element exists. -/
structure Html where
  nonEmpty : Bool
  titleElem : Option String
  bodyElem : Option String
deriving DecidableEq

/-- Markup that is empty as a raw string contains no elements; this is
a fact about BeautifulSoup parsing that the abstraction must respect. -/
def Html.wf (h : Html) : Prop :=
  h.nonEmpty = false → h.titleElem = none ∧ h.bodyElem = none

/-- One page-fetch result from the external crawler: final URL,
success flag and raw markup. -/
structure CrawlResult where
  url : String
  success : Bool
  html : Html
deriving DecidableEq

/-- The state of `NurContentExtractor`: the run buffer `self.dataset`
and the dedup ledger `self.visited_urls` (a Python set, modelled as a
membership-checked list). -/
structure NurContentExtractor where
  dataset : List ArticleRecord
  visited_urls : List String
deriving DecidableEq

/-- `__init__` at `sc.py:15-19`: empty run buffer, empty ledger
(directory creation is out of scope). -/
def initExtractor : NurContentExtractor :=
  { dataset := [], visited_urls := [] }

/-- `is_duplicate` at `sc.py:21-26`: membership check-and-mark in one
step; returns `true` and leaves the ledger unchanged for a seen URL,
otherwise inserts the URL and returns `false`. -/
def NurContentExtractor.is_duplicate (ex : NurContentExtractor) (url : String) :
    Bool × NurContentExtractor :=
  if url ∈ ex.visited_urls then (true, ex)
  else (false, { ex with visited_urls := url :: ex.visited_urls })

/-- `extract_content` at `sc.py:28-52`: `None` on falsy markup; title
and body default to `""` when their element is absent; `None` when
both are empty; otherwise the record dict with derived
`content_length`. -/
def extract_content (html_content : Html) (url : String) (now : String) :
    Option ArticleRecord :=
  if html_content.nonEmpty = false then none
  else if html_content.titleElem.getD "" = "" ∧ html_content.bodyElem.getD "" = ""
    then none
  else some { url := url, title := html_content.titleElem.getD "",
              content := html_content.bodyElem.getD "",
              crawl_time := now,
              content_length := (html_content.bodyElem.getD "").length }

/-- The character class of `re.sub(r'[<>:"/\\|?*]', '_', ...)` at
`sc.py:59`. -/
def illegalFilenameChar (c : Char) : Bool :=
  (['<', '>', ':', '"', '/', '\\', '|', '?', '*'] : List Char).contains c

/-- `re.sub(r'[<>:"/\\|?*]', '_', title)[:50]`: per-character
replacement, then the 50-code-point prefix. -/
def sanitizeTitle (t : String) : String :=
  ⟨(t.data.map fun c => if illegalFilenameChar c then '_' else c).take 50⟩

/-- `save_single_txt` at `sc.py:54-67`: no write for a falsy (empty)
title; otherwise one write of `<sanitized>.txt` holding the title
line, a blank line, then the body. The result is the written
`(filename, file content)` pair; the join with the fixed output
directory is elided. -/
def save_single_txt (data : ArticleRecord) : Option (String × String) :=
  if data.title = "" then none
  else
    let safe_title := sanitizeTitle data.title
    let txt_filename := safe_title ++ ".txt"
    some (txt_filename, data.title ++ "\n\n" ++ data.content)

/-- One historical file found in the output directory during seeding,
as `load_existing_urls` at `sc.py:69-80` sees it: either opening or
`json.load` raises (unreadable / corrupt JSON), or it parses to a
document that may carry an `articles` key, each article carrying its
`url` value or lacking the key (`none`, where `article['url']` would
raise `KeyError`). -/
inductive HistFile where
  | unreadable : HistFile
  | parsed : Bool → List (Option String) → HistFile
deriving DecidableEq

/-- Insertion into the `visited_urls` set. -/
def insertUrl (visited : List String) (u : String) : List String :=
  if u ∈ visited then visited else u :: visited

/-- The `for article in data['articles']` loop: URLs are added one by
one; a `KeyError` on a url-less article aborts the rest of this file
(the bare `except` catches it) but the URLs already added remain. -/
def addArticleUrls (visited : List String) : List (Option String) → List String
  | [] => visited
  | none :: _ => visited
  | some u :: rest => addArticleUrls (insertUrl visited u) rest

/-- Effect of one historical file on the ledger: an unreadable file,
or one without an `articles` key, contributes nothing; otherwise its
article URLs are inserted until a malformed article stops this file. -/
def loadFile (visited : List String) : HistFile → List String
  | .unreadable => visited
  | .parsed false _ => visited
  | .parsed true arts => addArticleUrls visited arts

/-- `load_existing_urls` at `sc.py:69-80`: fold every historical file
into the ledger; per-file failures are absorbed by the bare `except`. -/
def load_existing_urls (ex : NurContentExtractor) (files : List HistFile) :
    NurContentExtractor :=
  { ex with visited_urls := files.foldl loadFile ex.visited_urls }

/-- Orchestrator state inside the streaming loop of `deep_crawl_nur`
(`sc.py:116-142`): the extractor plus the three running counters. -/
structure RunState where
  extractor : NurContentExtractor
  result_count : Nat
  success_count : Nat
  skip_count : Nat
deriving DecidableEq

/-- Observable events of one loop iteration: an invocation of
`extract_content`, a txt-file write by `save_single_txt`, a duplicate
skip. -/
inductive RunEvent where
  | extractorCall : String → RunEvent
  | txtWrite : String → String → RunEvent
  | dupSkip : String → RunEvent
deriving DecidableEq

/-- Python's substring test `pat in s` on code-point lists. -/
def listContainsSub : List Char → List Char → Bool
  | pat, [] => pat.isEmpty
  | pat, c :: rest => pat.isPrefixOf (c :: rest) || listContainsSub pat rest

/-- `'/news/' in result.url` (`sc.py:125`). -/
def inPy (sub s : String) : Bool := listContainsSub sub.data s.data

/-- `result.url.endswith('.shtml')` (`sc.py:125`). -/
def endsWithPy (s suffix : String) : Bool := suffix.data.isSuffixOf s.data

/-- One iteration of the `async for result in ...` loop at
`sc.py:121-139`: count the result; on a successful fetch with truthy
markup and an article-shaped URL, check-and-mark the ledger, then
extract, append to the run buffer, count the success and write the
single txt artifact. Returns the new state and the iteration's events. -/
def processResult (s : RunState) (r : CrawlResult) (now : String) :
    RunState × List RunEvent :=
  let s := { s with result_count := s.result_count + 1 }
  if r.success && r.html.nonEmpty then
    if inPy "/news/" r.url && endsWithPy r.url ".shtml" then
      let (dup, ex) := s.extractor.is_duplicate r.url
      if dup then
        ({ s with extractor := ex, skip_count := s.skip_count + 1 },
         [.dupSkip r.url])
      else
        match extract_content r.html r.url now with
        | none => ({ s with extractor := ex }, [.extractorCall r.url])
        | some data =>
          let ex := { ex with dataset := ex.dataset ++ [data] }
          let s :=
            { s with extractor := ex, success_count := s.success_count + 1 }
          match save_single_txt data with
          | none => (s, [.extractorCall r.url])
          | some (fn, content) =>
            (s, [.extractorCall r.url, .txtWrite fn content])
    else (s, [])
  else (s, [])

/-- The whole streaming loop: consume the crawler's result list in
delivery order, reading the wall clock through `clock` at each step. -/
def runStream (clock : Nat → String) (s : RunState) :
    List CrawlResult → RunState × List RunEvent
  | [] => (s, [])
  | r :: rest =>
    let step := processResult s r (clock s.result_count)
    let tail := runStream clock step.1 rest
    (tail.1, step.2 ++ tail.2)

/-- The JSON document written by `save_final_dataset`
(`sc.py:166-171`). -/
structure Dataset where
  source : String
  crawl_date : String
  total_articles : Nat
  articles : List ArticleRecord
deriving DecidableEq

/-- `save_final_dataset` at `sc.py:156-173`: nothing is written for an
empty run buffer; otherwise one `(path, document)` with the timestamp
embedded in the file name, `total_articles = len(dataset)` and the
buffer as `articles`. `ts` and `now` stand for the two
`datetime.now()` renderings at `sc.py:162` and `sc.py:168`. -/
def save_final_dataset (dataset : List ArticleRecord) (ts now : String) :
    Option (String × Dataset) :=
  match dataset with
  | [] => none
  | _ =>
    some ("nur_dataset_" ++ ts ++ ".json",
      { source := "https://www.nur.cn/", crawl_date := now,
        total_articles := dataset.length, articles := dataset })

/-- The observable outcome of one run of `deep_crawl_nur`: the three
counters of the final summary report (`sc.py:145-148`), the event
trace, the aggregate file written by `save_final_dataset`
(`sc.py:150`), the returned run buffer (`sc.py:153`) and the final
loop state. -/
structure RunOutcome where
  pages : Nat
  successes : Nat
  dupSkips : Nat
  events : List RunEvent
  aggregate : Option (String × Dataset)
  returned : List ArticleRecord
  finalState : RunState
deriving DecidableEq

/-- The loop state just after seeding (`sc.py:92-93` and the counter
initialisation at `sc.py:117-119`). -/
def initRunState (histFiles : List HistFile) : RunState :=
  { extractor := load_existing_urls initExtractor histFiles,
    result_count := 0, success_count := 0, skip_count := 0 }

/-- `deep_crawl_nur` at `sc.py:83-153`: build a fresh extractor, seed
the ledger from the historical files, stream every crawler result
through `processResult`, report the counters, aggregate the run buffer
and return it. -/
def deep_crawl_nur (histFiles : List HistFile) (results : List CrawlResult)
    (clock : Nat → String) (finalTs finalNow : String) : RunOutcome :=
  let run := runStream clock (initRunState histFiles) results
  { pages := run.1.result_count
    successes := run.1.success_count
    dupSkips := run.1.skip_count
    events := run.2
    aggregate := save_final_dataset run.1.extractor.dataset finalTs finalNow
    returned := run.1.extractor.dataset
    finalState := run.1 }

/-- URLs passed to `extract_content`, read off the event trace. -/
def extractorCallUrls : List RunEvent → List String
  | [] => []
  | .extractorCall u :: rest => u :: extractorCallUrls rest
  | .txtWrite _ _ :: rest => extractorCallUrls rest
  | .dupSkip _ :: rest => extractorCallUrls rest

/-- Txt-file writes `(filename, content)`, read off the event trace. -/
def txtWriteEvents : List RunEvent → List (String × String)
  | [] => []
  | .txtWrite fn c :: rest => (fn, c) :: txtWriteEvents rest
  | .extractorCall _ :: rest => txtWriteEvents rest
  | .dupSkip _ :: rest => txtWriteEvents rest

/-- Duplicate skips, read off the event trace. -/
def dupSkipUrls : List RunEvent → List String
  | [] => []
  | .dupSkip u :: rest => u :: dupSkipUrls rest
  | .extractorCall _ :: rest => dupSkipUrls rest
  | .txtWrite _ _ :: rest => dupSkipUrls rest

/-- The txt-write events produced for one freshly appended record:
none when `save_single_txt` skips, one write otherwise. -/
def txtEvs (data : ArticleRecord) : List RunEvent :=
  match save_single_txt data with
  | none => []
  | some (fn, c) => [RunEvent.txtWrite fn c]

/-- Scenario harness for the idempotence property: run once on
`results` with an empty output directory, seed a second run's ledger
from the aggregate file the first run persisted (its article URLs are
the first run's buffer URLs), and stream the identical page set
again. -/
def secondRun (results : List CrawlResult) (clock1 clock2 : Nat → String)
    (ts1 now1 ts2 now2 : String) : RunOutcome :=
  deep_crawl_nur
    [HistFile.parsed true
      (((deep_crawl_nur [] results clock1 ts1 now1).returned.map
          (fun a => a.url)).map some)]
    results clock2 ts2 now2

/-! ## Concrete fixtures for the closed instance theorems -/

/-- Markup of a normal article page. -/
def pageHtml : Html :=
  { nonEmpty := true, titleElem := some "Tor tarix",
    bodyElem := some "Mazmun bir\nMazmun eki" }

/-- A successful fetch of an article-shaped URL. -/
def pageResult : CrawlResult :=
  { url := "https://www.nur.cn/news/1.shtml", success := true,
    html := pageHtml }

/-- Markup carrying neither the title element nor the body element. -/
def blankHtml : Html :=
  { nonEmpty := true, titleElem := none, bodyElem := none }

/-- A successful fetch of an article-shaped URL whose page has no
extractable content. -/
def blankResult : CrawlResult :=
  { url := "https://www.nur.cn/news/2.shtml", success := true,
    html := blankHtml }

/-- A constant wall clock. -/
def fixedClock : Nat → String := fun _ => "2024-01-01T00:00:00"

/-- The record the pipeline extracts from `pageResult` under
`fixedClock`. -/
def sampleRecord : ArticleRecord :=
  { url := "https://www.nur.cn/news/1.shtml", title := "Tor tarix",
    content := "Mazmun bir\nMazmun eki",
    crawl_time := "2024-01-01T00:00:00", content_length := 21 }

/-- The aggregate document written for a run that captured exactly
`sampleRecord`. -/
def sampleDataset : Dataset :=
  { source := "https://www.nur.cn/", crawl_date := "NOW",
    total_articles := 1, articles := [sampleRecord] }

/-- A mid-run state whose ledger already holds `pageResult.url`. -/
def seenState : RunState :=
  { extractor :=
      { dataset := [sampleRecord],
        visited_urls := ["https://www.nur.cn/news/1.shtml"] },
    result_count := 3, success_count := 1, skip_count := 0 }

/-- A mid-run state with an empty ledger. -/
def freshState : RunState :=
  { extractor := { dataset := [], visited_urls := [] },
    result_count := 0, success_count := 0, skip_count := 0 }

/-! ## Basic lemmas about the components -/

lemma extract_content_some_props {html : Html} {url now : String}
    {data : ArticleRecord}
    (h : extract_content html url now = some data) :
    data.url = url ∧ data.title = html.titleElem.getD "" ∧
    data.content = html.bodyElem.getD "" ∧ data.crawl_time = now ∧
    data.content_length = data.content.length ∧
    ¬(data.title = "" ∧ data.content = "") := by
  unfold extract_content at h
  split at h
  · exact absurd h (by simp)
  · split at h
    · exact absurd h (by simp)
    · rename_i hboth
      cases h
      simpa using hboth

lemma extract_content_none_iff {html : Html} {url now : String}
    (hwf : html.wf) :
    extract_content html url now = none ↔
      (html.titleElem.getD "" = "" ∧ html.bodyElem.getD "" = "") := by
  unfold extract_content
  split
  · rename_i hne
    simp only [eq_self_iff_true, true_iff]
    rcases hwf hne with ⟨ht, hb⟩
    rw [ht, hb]
    exact ⟨rfl, rfl⟩
  · split
    · rename_i hboth
      simpa using hboth
    · rename_i hboth
      simpa using hboth

lemma extract_content_none_time {html : Html} {url t1 t2 : String}
    (h : extract_content html url t1 = none) :
    extract_content html url t2 = none := by
  unfold extract_content at h ⊢
  split_ifs at h ⊢ <;> simp_all

lemma save_final_dataset_none_iff {ds : List ArticleRecord} {ts now : String} :
    save_final_dataset ds ts now = none ↔ ds = [] := by
  cases ds <;> simp [save_final_dataset]

lemma save_final_dataset_some_props {ds : List ArticleRecord}
    {ts now : String} {p : String} {d : Dataset}
    (h : save_final_dataset ds ts now = some (p, d)) :
    d.articles = ds ∧ d.total_articles = d.articles.length := by
  cases ds with
  | nil => exact absurd h (by simp [save_final_dataset])
  | cons a rest =>
    unfold save_final_dataset at h
    cases h
    exact ⟨rfl, rfl⟩

lemma mem_insertUrl {u w : String} {v : List String} :
    u ∈ insertUrl v w ↔ u = w ∨ u ∈ v := by
  unfold insertUrl
  split
  · rename_i hw
    constructor
    · exact Or.inr
    · rintro (rfl | hm)
      · exact hw
      · exact hm
  · simp [List.mem_cons]

lemma mem_addArticleUrls_of_mem {u : String} {v : List String}
    (arts : List (Option String)) (h : u ∈ v) :
    u ∈ addArticleUrls v arts := by
  induction arts generalizing v with
  | nil => exact h
  | cons a rest ih =>
    cases a with
    | none => exact h
    | some w => exact ih (mem_insertUrl.mpr (Or.inr h))

lemma mem_addArticleUrls_map_some {u : String} {v : List String}
    (us : List String) :
    u ∈ addArticleUrls v (us.map some) ↔ u ∈ v ∨ u ∈ us := by
  induction us generalizing v with
  | nil => simp [addArticleUrls]
  | cons w rest ih =>
    simp only [List.map_cons, addArticleUrls, ih, mem_insertUrl,
      List.mem_cons]
    tauto

lemma mem_loadFile_of_mem {u : String} {v : List String} (f : HistFile)
    (h : u ∈ v) : u ∈ loadFile v f := by
  cases f with
  | unreadable => exact h
  | parsed b arts =>
    cases b with
    | false => exact h
    | true => exact mem_addArticleUrls_of_mem arts h

lemma mem_foldl_loadFile_of_mem {u : String} {v : List String}
    (files : List HistFile) (h : u ∈ v) :
    u ∈ files.foldl loadFile v := by
  induction files generalizing v with
  | nil => exact h
  | cons f rest ih => exact ih (mem_loadFile_of_mem f h)

lemma foldl_loadFile_unreadable (fs1 fs2 : List HistFile)
    (v : List String) :
    (fs1 ++ HistFile.unreadable :: fs2).foldl loadFile v =
      (fs1 ++ fs2).foldl loadFile v := by
  induction fs1 generalizing v with
  | nil => rfl
  | cons f rest ih => exact ih (loadFile v f)

lemma extractorCallUrls_append (l1 l2 : List RunEvent) :
    extractorCallUrls (l1 ++ l2) =
      extractorCallUrls l1 ++ extractorCallUrls l2 := by
  induction l1 with
  | nil => rfl
  | cons e rest ih => cases e <;> simp [extractorCallUrls, ih]

lemma txtWriteEvents_append (l1 l2 : List RunEvent) :
    txtWriteEvents (l1 ++ l2) = txtWriteEvents l1 ++ txtWriteEvents l2 := by
  induction l1 with
  | nil => rfl
  | cons e rest ih => cases e <;> simp [txtWriteEvents, ih]

lemma dupSkipUrls_append (l1 l2 : List RunEvent) :
    dupSkipUrls (l1 ++ l2) = dupSkipUrls l1 ++ dupSkipUrls l2 := by
  induction l1 with
  | nil => rfl
  | cons e rest ih => cases e <;> simp [dupSkipUrls, ih]

/-! ## Case analysis of one loop iteration -/

lemma processResult_no_fetch {s : RunState} {r : CrawlResult} {now : String}
    (h : (r.success && r.html.nonEmpty) = false) :
    processResult s r now = ({ s with result_count := s.result_count + 1 }, []) := by
  simp [processResult, h]

lemma processResult_not_article {s : RunState} {r : CrawlResult} {now : String}
    (h1 : (r.success && r.html.nonEmpty) = true)
    (h2 : (inPy "/news/" r.url && endsWithPy r.url ".shtml") = false) :
    processResult s r now = ({ s with result_count := s.result_count + 1 }, []) := by
  simp [processResult, h1, h2]

lemma processResult_dup {s : RunState} {r : CrawlResult} {now : String}
    (h1 : (r.success && r.html.nonEmpty) = true)
    (h2 : (inPy "/news/" r.url && endsWithPy r.url ".shtml") = true)
    (h3 : r.url ∈ s.extractor.visited_urls) :
    processResult s r now =
      ({ s with result_count := s.result_count + 1,
                skip_count := s.skip_count + 1 },
       [.dupSkip r.url]) := by
  simp [processResult, h1, h2, NurContentExtractor.is_duplicate, h3]

lemma processResult_fresh_none {s : RunState} {r : CrawlResult} {now : String}
    (h1 : (r.success && r.html.nonEmpty) = true)
    (h2 : (inPy "/news/" r.url && endsWithPy r.url ".shtml") = true)
    (h3 : r.url ∉ s.extractor.visited_urls)
    (h4 : extract_content r.html r.url now = none) :
    processResult s r now =
      ({ s with
          extractor :=
            { s.extractor with
              visited_urls := r.url :: s.extractor.visited_urls },
          result_count := s.result_count + 1 },
       [.extractorCall r.url]) := by
  simp [processResult, h1, h2, NurContentExtractor.is_duplicate, h3, h4]

lemma processResult_fresh_some {s : RunState} {r : CrawlResult} {now : String}
    {data : ArticleRecord}
    (h1 : (r.success && r.html.nonEmpty) = true)
    (h2 : (inPy "/news/" r.url && endsWithPy r.url ".shtml") = true)
    (h3 : r.url ∉ s.extractor.visited_urls)
    (h4 : extract_content r.html r.url now = some data) :
    processResult s r now =
      ({ s with
          extractor :=
            { dataset := s.extractor.dataset ++ [data],
              visited_urls := r.url :: s.extractor.visited_urls },
          result_count := s.result_count + 1,
          success_count := s.success_count + 1 },
       RunEvent.extractorCall r.url :: txtEvs data) := by
  cases h5 : save_single_txt data with
  | none =>
    simp [processResult, h1, h2, NurContentExtractor.is_duplicate, h3, h4, h5,
      txtEvs]
  | some fc =>
    cases fc with
    | mk fn c =>
      simp [processResult, h1, h2, NurContentExtractor.is_duplicate, h3, h4,
        h5, txtEvs]

lemma runStream_cons (clock : Nat → String) (s : RunState) (r : CrawlResult)
    (rest : List CrawlResult) :
    runStream clock s (r :: rest) =
      ((runStream clock (processResult s r (clock s.result_count)).1 rest).1,
       (processResult s r (clock s.result_count)).2 ++
         (runStream clock (processResult s r (clock s.result_count)).1 rest).2) :=
  rfl

lemma extractorCallUrls_txtEvs (data : ArticleRecord) :
    extractorCallUrls (txtEvs data) = [] := by
  unfold txtEvs
  cases h : save_single_txt data with
  | none => rfl
  | some fc => cases fc with | mk fn c => rfl

lemma dupSkipUrls_txtEvs (data : ArticleRecord) :
    dupSkipUrls (txtEvs data) = [] := by
  unfold txtEvs
  cases h : save_single_txt data with
  | none => rfl
  | some fc => cases fc with | mk fn c => rfl

lemma txtWriteEvents_txtEvs (data : ArticleRecord) :
    txtWriteEvents (txtEvs data) = (save_single_txt data).toList := by
  unfold txtEvs
  cases h : save_single_txt data with
  | none => rfl
  | some fc => cases fc with | mk fn c => rfl

/-- Exhaustive case analysis of one loop iteration, with the exact
state and events of each branch. -/
lemma processResult_cases (s : RunState) (r : CrawlResult) (now : String) :
    ((r.success && r.html.nonEmpty &&
        (inPy "/news/" r.url && endsWithPy r.url ".shtml")) = false ∧
     processResult s r now =
       ({ s with result_count := s.result_count + 1 }, [])) ∨
    ((r.success && r.html.nonEmpty &&
        (inPy "/news/" r.url && endsWithPy r.url ".shtml")) = true ∧
     r.url ∈ s.extractor.visited_urls ∧
     processResult s r now =
       ({ s with result_count := s.result_count + 1,
                 skip_count := s.skip_count + 1 },
        [.dupSkip r.url])) ∨
    ((r.success && r.html.nonEmpty &&
        (inPy "/news/" r.url && endsWithPy r.url ".shtml")) = true ∧
     r.url ∉ s.extractor.visited_urls ∧
     extract_content r.html r.url now = none ∧
     processResult s r now =
       ({ s with
           extractor :=
             { s.extractor with
               visited_urls := r.url :: s.extractor.visited_urls },
           result_count := s.result_count + 1 },
        [.extractorCall r.url])) ∨
    (∃ data, (r.success && r.html.nonEmpty &&
        (inPy "/news/" r.url && endsWithPy r.url ".shtml")) = true ∧
     r.url ∉ s.extractor.visited_urls ∧
     extract_content r.html r.url now = some data ∧
     processResult s r now =
       ({ s with
           extractor :=
             { dataset := s.extractor.dataset ++ [data],
               visited_urls := r.url :: s.extractor.visited_urls },
           result_count := s.result_count + 1,
           success_count := s.success_count + 1 },
        RunEvent.extractorCall r.url :: txtEvs data)) := by
  cases hb1 : (r.success && r.html.nonEmpty) with
  | false => exact Or.inl ⟨by simp [hb1], processResult_no_fetch hb1⟩
  | true =>
    cases hb2 : (inPy "/news/" r.url && endsWithPy r.url ".shtml") with
    | false =>
      exact Or.inl ⟨by simp [hb1, hb2], processResult_not_article hb1 hb2⟩
    | true =>
      by_cases hm : r.url ∈ s.extractor.visited_urls
      · exact Or.inr (Or.inl
          ⟨by simp [hb1, hb2], hm, processResult_dup hb1 hb2 hm⟩)
      · cases hx : extract_content r.html r.url now with
        | none =>
          exact Or.inr (Or.inr (Or.inl
            ⟨by simp [hb1, hb2], hm, rfl,
             processResult_fresh_none hb1 hb2 hm hx⟩))
        | some data =>
          exact Or.inr (Or.inr (Or.inr
            ⟨data, by simp [hb1, hb2], hm, rfl,
             processResult_fresh_some hb1 hb2 hm hx⟩))

/-! ## Invariants of the streaming loop -/

lemma runStream_pages (clock : Nat → String) :
    ∀ (rs : List CrawlResult) (s : RunState),
    (runStream clock s rs).1.result_count = s.result_count + rs.length := by
  intro rs
  induction rs with
  | nil => intro s; simp [runStream]
  | cons r rest ih =>
    intro s
    rcases processResult_cases s r (clock s.result_count) with
      ⟨_, heq⟩ | ⟨_, _, heq⟩ | ⟨_, _, _, heq⟩ | ⟨data, _, _, _, heq⟩ <;>
    · rw [runStream_cons, heq]
      dsimp only
      rw [ih]
      dsimp only
      simp only [List.length_cons]
      omega

lemma runStream_skips (clock : Nat → String) :
    ∀ (rs : List CrawlResult) (s : RunState),
    (runStream clock s rs).1.skip_count =
      s.skip_count + (dupSkipUrls (runStream clock s rs).2).length := by
  intro rs
  induction rs with
  | nil => intro s; simp [runStream, dupSkipUrls]
  | cons r rest ih =>
    intro s
    rcases processResult_cases s r (clock s.result_count) with
      ⟨_, heq⟩ | ⟨_, _, heq⟩ | ⟨_, _, _, heq⟩ | ⟨data, _, _, _, heq⟩ <;>
    · rw [runStream_cons, heq]
      dsimp only
      rw [dupSkipUrls_append, ih]
      dsimp only
      simp only [dupSkipUrls, dupSkipUrls_txtEvs, List.length_append,
        List.length_cons, List.length_nil]
      omega

lemma runStream_visited_mono (clock : Nat → String) :
    ∀ (rs : List CrawlResult) (s : RunState),
    ∀ u ∈ s.extractor.visited_urls,
      u ∈ (runStream clock s rs).1.extractor.visited_urls := by
  intro rs
  induction rs with
  | nil => intro s u hu; simpa [runStream] using hu
  | cons r rest ih =>
    intro s u hu
    rcases processResult_cases s r (clock s.result_count) with
      ⟨_, heq⟩ | ⟨_, _, heq⟩ | ⟨_, _, _, heq⟩ | ⟨data, _, _, _, heq⟩ <;>
    · rw [runStream_cons, heq]
      dsimp only
      first
        | exact ih _ u hu
        | exact ih _ u (List.mem_cons_of_mem _ hu)

lemma runStream_calls (clock : Nat → String) :
    ∀ (rs : List CrawlResult) (s : RunState),
    ∀ u ∈ extractorCallUrls (runStream clock s rs).2,
      u ∉ s.extractor.visited_urls ∧
      u ∈ (runStream clock s rs).1.extractor.visited_urls := by
  intro rs
  induction rs with
  | nil =>
    intro s u hu
    simp [runStream, extractorCallUrls] at hu
  | cons r rest ih =>
    intro s u hu
    rcases processResult_cases s r (clock s.result_count) with
      ⟨_, heq⟩ | ⟨_, hm, heq⟩ | ⟨_, hm, hx, heq⟩ | ⟨data, _, hm, hx, heq⟩
    · rw [runStream_cons, heq] at hu ⊢
      dsimp only at hu ⊢
      rw [extractorCallUrls_append] at hu
      simp only [extractorCallUrls, List.nil_append] at hu
      exact ih _ u hu
    · rw [runStream_cons, heq] at hu ⊢
      dsimp only at hu ⊢
      rw [extractorCallUrls_append] at hu
      simp only [extractorCallUrls, List.nil_append] at hu
      exact ih _ u hu
    · rw [runStream_cons, heq] at hu ⊢
      dsimp only at hu ⊢
      rw [extractorCallUrls_append] at hu
      simp only [extractorCallUrls, List.cons_append, List.nil_append] at hu
      rcases List.mem_cons.mp hu with rfl | htail
      · exact ⟨hm, runStream_visited_mono clock rest _ r.url
          (List.mem_cons_self _ _)⟩
      · obtain ⟨hnv, hv⟩ := ih _ u htail
        exact ⟨fun hc => hnv (List.mem_cons_of_mem _ hc), hv⟩
    · rw [runStream_cons, heq] at hu ⊢
      dsimp only at hu ⊢
      rw [List.cons_append, extractorCallUrls] at hu
      rw [extractorCallUrls_append, extractorCallUrls_txtEvs,
        List.nil_append] at hu
      rcases List.mem_cons.mp hu with rfl | htail
      · exact ⟨hm, runStream_visited_mono clock rest _ r.url
          (List.mem_cons_self _ _)⟩
      · obtain ⟨hnv, hv⟩ := ih _ u htail
        exact ⟨fun hc => hnv (List.mem_cons_of_mem _ hc), hv⟩

lemma runStream_calls_nodup (clock : Nat → String) :
    ∀ (rs : List CrawlResult) (s : RunState),
    (extractorCallUrls (runStream clock s rs).2).Nodup := by
  intro rs
  induction rs with
  | nil =>
    intro s
    simp [runStream, extractorCallUrls]
  | cons r rest ih =>
    intro s
    rcases processResult_cases s r (clock s.result_count) with
      ⟨_, heq⟩ | ⟨_, hm, heq⟩ | ⟨_, hm, hx, heq⟩ | ⟨data, _, hm, hx, heq⟩
    · rw [runStream_cons, heq]
      dsimp only
      rw [extractorCallUrls_append]
      simpa only [extractorCallUrls, List.nil_append] using ih _
    · rw [runStream_cons, heq]
      dsimp only
      rw [extractorCallUrls_append]
      simpa only [extractorCallUrls, List.nil_append] using ih _
    · rw [runStream_cons, heq]
      dsimp only
      rw [extractorCallUrls_append]
      simp only [extractorCallUrls, List.cons_append, List.nil_append,
        List.nodup_cons]
      refine ⟨fun hc => ?_, ih _⟩
      exact (runStream_calls clock rest _ r.url hc).1
        (List.mem_cons_self _ _)
    · rw [runStream_cons, heq]
      dsimp only
      rw [List.cons_append, extractorCallUrls, extractorCallUrls_append,
        extractorCallUrls_txtEvs, List.nil_append]
      rw [List.nodup_cons]
      refine ⟨fun hc => ?_, ih _⟩
      exact (runStream_calls clock rest _ r.url hc).1
        (List.mem_cons_self _ _)

lemma toList_append_filterMap (data : ArticleRecord) (Δ : List ArticleRecord) :
    (save_single_txt data).toList ++ Δ.filterMap save_single_txt =
      (data :: Δ).filterMap save_single_txt := by
  cases hsv : save_single_txt data <;> simp [List.filterMap_cons, hsv]

lemma runStream_dataset (clock : Nat → String) :
    ∀ (rs : List CrawlResult) (s : RunState),
    ∃ Δ : List ArticleRecord,
      (runStream clock s rs).1.extractor.dataset =
        s.extractor.dataset ++ Δ ∧
      (runStream clock s rs).1.success_count = s.success_count + Δ.length ∧
      txtWriteEvents (runStream clock s rs).2 =
        Δ.filterMap save_single_txt ∧
      (Δ.map (fun a => a.url)).Nodup ∧
      ∀ a ∈ Δ, a.content_length = a.content.length ∧
        ¬(a.title = "" ∧ a.content = "") ∧
        a.url ∉ s.extractor.visited_urls ∧
        a.url ∈ (runStream clock s rs).1.extractor.visited_urls ∧
        a.url ∈ extractorCallUrls (runStream clock s rs).2 := by
  intro rs
  induction rs with
  | nil =>
    intro s
    exact ⟨[], by simp [runStream, txtWriteEvents]⟩
  | cons r rest ih =>
    intro s
    rcases processResult_cases s r (clock s.result_count) with
      ⟨_, heq⟩ | ⟨_, hm, heq⟩ | ⟨_, hm, hx, heq⟩ | ⟨data, _, hm, hx, heq⟩
    · obtain ⟨Δ, h1, h2, h3, h4, h5⟩ :=
        ih { s with result_count := s.result_count + 1 }
      refine ⟨Δ, ?_, ?_, ?_, h4, ?_⟩
      · rw [runStream_cons, heq]
        exact h1
      · rw [runStream_cons, heq]
        exact h2
      · rw [runStream_cons, heq]
        dsimp only
        rw [txtWriteEvents_append]
        simpa only [txtWriteEvents, List.nil_append] using h3
      · intro a ha
        obtain ⟨p1, p2, p3, p4, p5⟩ := h5 a ha
        rw [runStream_cons, heq]
        dsimp only
        rw [extractorCallUrls_append]
        simp only [extractorCallUrls, List.nil_append]
        exact ⟨p1, p2, p3, p4, p5⟩
    · obtain ⟨Δ, h1, h2, h3, h4, h5⟩ :=
        ih { s with result_count := s.result_count + 1,
                    skip_count := s.skip_count + 1 }
      refine ⟨Δ, ?_, ?_, ?_, h4, ?_⟩
      · rw [runStream_cons, heq]
        exact h1
      · rw [runStream_cons, heq]
        exact h2
      · rw [runStream_cons, heq]
        dsimp only
        rw [txtWriteEvents_append]
        simpa only [txtWriteEvents, List.nil_append] using h3
      · intro a ha
        obtain ⟨p1, p2, p3, p4, p5⟩ := h5 a ha
        rw [runStream_cons, heq]
        dsimp only
        rw [extractorCallUrls_append]
        simp only [extractorCallUrls, List.nil_append]
        exact ⟨p1, p2, p3, p4, p5⟩
    · obtain ⟨Δ, h1, h2, h3, h4, h5⟩ :=
        ih { s with
              extractor :=
                { s.extractor with
                  visited_urls := r.url :: s.extractor.visited_urls },
              result_count := s.result_count + 1 }
      refine ⟨Δ, ?_, ?_, ?_, h4, ?_⟩
      · rw [runStream_cons, heq]
        exact h1
      · rw [runStream_cons, heq]
        exact h2
      · rw [runStream_cons, heq]
        dsimp only
        rw [txtWriteEvents_append]
        simpa only [txtWriteEvents, List.nil_append] using h3
      · intro a ha
        obtain ⟨p1, p2, p3, p4, p5⟩ := h5 a ha
        rw [runStream_cons, heq]
        dsimp only
        rw [extractorCallUrls_append]
        simp only [extractorCallUrls, List.cons_append, List.nil_append]
        refine ⟨p1, p2, fun hc => p3 (List.mem_cons_of_mem _ hc), p4,
          List.mem_cons_of_mem _ p5⟩
    · obtain ⟨durl, dtitle, dcontent, dtime, dlen, dne⟩ :=
        extract_content_some_props hx
      obtain ⟨Δ, h1, h2, h3, h4, h5⟩ :=
        ih { s with
              extractor :=
                { dataset := s.extractor.dataset ++ [data],
                  visited_urls := r.url :: s.extractor.visited_urls },
              result_count := s.result_count + 1,
              success_count := s.success_count + 1 }
      refine ⟨data :: Δ, ?_, ?_, ?_, ?_, ?_⟩
      · rw [runStream_cons, heq]
        dsimp only
        dsimp only at h1
        rw [h1, List.append_assoc, List.singleton_append]
      · rw [runStream_cons, heq]
        dsimp only
        dsimp only at h2
        rw [h2, List.length_cons]
        omega
      · rw [runStream_cons, heq]
        dsimp only
        rw [List.cons_append, txtWriteEvents, txtWriteEvents_append,
          txtWriteEvents_txtEvs, h3, toList_append_filterMap]
      · rw [List.map_cons, List.nodup_cons]
        constructor
        · intro hc
          obtain ⟨a, ha, haeq⟩ := List.mem_map.mp hc
          have hnv := (h5 a ha).2.2.1
          rw [haeq, durl] at hnv
          exact hnv (List.mem_cons_self _ _)
        · exact h4
      · intro a ha
        rcases List.mem_cons.mp ha with rfl | ha
        · refine ⟨?_, dne, ?_, ?_, ?_⟩
          · rw [dlen]
          · rw [durl]; exact hm
          · rw [runStream_cons, heq]
            dsimp only
            refine runStream_visited_mono clock rest _ a.url ?_
            rw [durl]
            exact List.mem_cons_self _ _
          · rw [runStream_cons, heq]
            dsimp only
            rw [List.cons_append, extractorCallUrls]
            rw [durl]
            exact List.mem_cons_self _ _
        · obtain ⟨p1, p2, p3, p4, p5⟩ := h5 a ha
          refine ⟨p1, p2, fun hc => p3 (List.mem_cons_of_mem _ hc), ?_, ?_⟩
          · rw [runStream_cons, heq]
            exact p4
          · rw [runStream_cons, heq]
            dsimp only
            rw [List.cons_append, extractorCallUrls, extractorCallUrls_append,
              extractorCallUrls_txtEvs, List.nil_append]
            exact List.mem_cons_of_mem _ p5

/-- Second-run simulation: if the second run's ledger initially covers
the first run's ledger together with every URL the first run will ever
put in its run buffer, and its buffer starts empty, then streaming the
same page results (at any wall-clock readings) adds nothing to the
second run's buffer. -/
lemma runStream_second_run (clock1 clock2 : Nat → String) :
    ∀ (rs : List CrawlResult) (s1 s2 : RunState),
    s2.extractor.dataset = [] →
    (∀ u, u ∈ s2.extractor.visited_urls ↔
       (u ∈ s1.extractor.visited_urls ∨
        u ∈ ((runStream clock1 s1 rs).1.extractor.dataset.map
              (fun a => a.url)))) →
    (runStream clock2 s2 rs).1.extractor.dataset = [] := by
  intro rs
  induction rs with
  | nil =>
    intro s1 s2 hds hinv
    simpa [runStream] using hds
  | cons r rest ih =>
    intro s1 s2 hds hinv
    rcases processResult_cases s1 r (clock1 s1.result_count) with
      ⟨hb1, heq1⟩ | ⟨hb1, hm1, heq1⟩ | ⟨hb1, hm1, hx1, heq1⟩ |
      ⟨data1, hb1, hm1, hx1, heq1⟩ <;>
    rcases processResult_cases s2 r (clock2 s2.result_count) with
      ⟨hb2, heq2⟩ | ⟨hb2, hm2, heq2⟩ | ⟨hb2, hm2, hx2, heq2⟩ |
      ⟨data2, hb2, hm2, hx2, heq2⟩
    -- (1,1)
    · rw [runStream_cons, heq1] at hinv
      rw [runStream_cons, heq2]
      dsimp only at hinv ⊢
      exact ih { s1 with result_count := s1.result_count + 1 } _ hds hinv
    -- (1,2) flag mismatch
    · exact absurd hb2 (by simp [hb1])
    -- (1,3)
    · exact absurd hb2 (by simp [hb1])
    -- (1,4)
    · exact absurd hb2 (by simp [hb1])
    -- (2,1)
    · exact absurd hb1 (by simp [hb2])
    -- (2,2)
    · rw [runStream_cons, heq1] at hinv
      rw [runStream_cons, heq2]
      dsimp only at hinv ⊢
      exact ih { s1 with result_count := s1.result_count + 1,
                         skip_count := s1.skip_count + 1 } _ hds hinv
    -- (2,3) run1 saw a duplicate, run2 claims fresh: impossible
    · exact absurd ((hinv r.url).mpr (Or.inl hm1)) hm2
    -- (2,4)
    · exact absurd ((hinv r.url).mpr (Or.inl hm1)) hm2
    -- (3,1)
    · exact absurd hb1 (by simp [hb2])
    -- (3,2) run1 fresh (empty extraction), run2 duplicate
    · rw [runStream_cons, heq1] at hinv
      dsimp only at hinv
      rw [runStream_cons, heq2]
      dsimp only
      refine ih
        { s1 with
            extractor :=
              { s1.extractor with
                visited_urls := r.url :: s1.extractor.visited_urls },
            result_count := s1.result_count + 1 } _ hds ?_
      intro u
      constructor
      · intro hu
        rcases (hinv u).mp hu with h | h
        · exact Or.inl (List.mem_cons_of_mem _ h)
        · exact Or.inr h
      · rintro (hu | hu)
        · rcases List.mem_cons.mp hu with rfl | hu
          · exact hm2
          · exact (hinv u).mpr (Or.inl hu)
        · exact (hinv u).mpr (Or.inr hu)
    -- (3,3) both fresh, both extract nothing
    · rw [runStream_cons, heq1] at hinv
      dsimp only at hinv
      rw [runStream_cons, heq2]
      dsimp only
      refine ih
        { s1 with
            extractor :=
              { s1.extractor with
                visited_urls := r.url :: s1.extractor.visited_urls },
            result_count := s1.result_count + 1 } _ hds ?_
      intro u
      constructor
      · intro hu
        rcases List.mem_cons.mp hu with rfl | hu
        · exact Or.inl (List.mem_cons_self _ _)
        · rcases (hinv u).mp hu with h | h
          · exact Or.inl (List.mem_cons_of_mem _ h)
          · exact Or.inr h
      · rintro (hu | hu)
        · rcases List.mem_cons.mp hu with rfl | hu
          · exact List.mem_cons_self _ _
          · exact List.mem_cons_of_mem _ ((hinv u).mpr (Or.inl hu))
        · exact List.mem_cons_of_mem _ ((hinv u).mpr (Or.inr hu))
    -- (3,4) emptiness of extraction cannot depend on the clock
    · have h : extract_content r.html r.url (clock2 s2.result_count) = none :=
        extract_content_none_time hx1
      rw [hx2] at h
      exact Option.noConfusion h
    -- (4,1)
    · exact absurd hb1 (by simp [hb2])
    -- (4,2) run1 captures the article, run2 duplicate
    · rw [runStream_cons, heq1] at hinv
      dsimp only at hinv
      rw [runStream_cons, heq2]
      dsimp only
      refine ih
        { s1 with
            extractor :=
              { dataset := s1.extractor.dataset ++ [data1],
                visited_urls := r.url :: s1.extractor.visited_urls },
            result_count := s1.result_count + 1,
            success_count := s1.success_count + 1 } _ hds ?_
      intro u
      constructor
      · intro hu
        rcases (hinv u).mp hu with h | h
        · exact Or.inl (List.mem_cons_of_mem _ h)
        · exact Or.inr h
      · rintro (hu | hu)
        · rcases List.mem_cons.mp hu with rfl | hu
          · exact hm2
          · exact (hinv u).mpr (Or.inl hu)
        · exact (hinv u).mpr (Or.inr hu)
    -- (4,3) run1 captures, run2 fresh: the URL was promised to the ledger
    · have hF : r.url ∈ ((runStream clock1 s1 (r :: rest)).1.extractor.dataset.map
          (fun a => a.url)) := by
        rw [runStream_cons, heq1]
        dsimp only
        obtain ⟨Δ, hΔ, _, _, _, _⟩ := runStream_dataset clock1 rest
          { s1 with
              extractor :=
                { dataset := s1.extractor.dataset ++ [data1],
                  visited_urls := r.url :: s1.extractor.visited_urls },
              result_count := s1.result_count + 1,
              success_count := s1.success_count + 1 }
        rw [hΔ]
        dsimp only
        refine List.mem_map.mpr ⟨data1, ?_, (extract_content_some_props hx1).1⟩
        exact List.mem_append.mpr (Or.inl (List.mem_append.mpr
          (Or.inr (List.mem_singleton.mpr rfl))))
      exact absurd ((hinv r.url).mpr (Or.inr hF)) hm2
    -- (4,4) same promise argument
    · have hF : r.url ∈ ((runStream clock1 s1 (r :: rest)).1.extractor.dataset.map
          (fun a => a.url)) := by
        rw [runStream_cons, heq1]
        dsimp only
        obtain ⟨Δ, hΔ, _, _, _, _⟩ := runStream_dataset clock1 rest
          { s1 with
              extractor :=
                { dataset := s1.extractor.dataset ++ [data1],
                  visited_urls := r.url :: s1.extractor.visited_urls },
              result_count := s1.result_count + 1,
              success_count := s1.success_count + 1 }
        rw [hΔ]
        dsimp only
        refine List.mem_map.mpr ⟨data1, ?_, (extract_content_some_props hx1).1⟩
        exact List.mem_append.mpr (Or.inl (List.mem_append.mpr
          (Or.inr (List.mem_singleton.mpr rfl))))
      exact absurd ((hinv r.url).mpr (Or.inr hF)) hm2

/-! ## Glue between the orchestrator wrapper and the loop -/

lemma deep_crawl_returned (h : List HistFile) (r : List CrawlResult)
    (c : Nat → String) (ts now : String) :
    (deep_crawl_nur h r c ts now).returned =
      (runStream c (initRunState h) r).1.extractor.dataset := rfl

lemma deep_crawl_pages (h : List HistFile) (r : List CrawlResult)
    (c : Nat → String) (ts now : String) :
    (deep_crawl_nur h r c ts now).pages =
      (runStream c (initRunState h) r).1.result_count := rfl

lemma deep_crawl_successes (h : List HistFile) (r : List CrawlResult)
    (c : Nat → String) (ts now : String) :
    (deep_crawl_nur h r c ts now).successes =
      (runStream c (initRunState h) r).1.success_count := rfl

lemma deep_crawl_dupSkips (h : List HistFile) (r : List CrawlResult)
    (c : Nat → String) (ts now : String) :
    (deep_crawl_nur h r c ts now).dupSkips =
      (runStream c (initRunState h) r).1.skip_count := rfl

lemma deep_crawl_events (h : List HistFile) (r : List CrawlResult)
    (c : Nat → String) (ts now : String) :
    (deep_crawl_nur h r c ts now).events =
      (runStream c (initRunState h) r).2 := rfl

lemma deep_crawl_aggregate (h : List HistFile) (r : List CrawlResult)
    (c : Nat → String) (ts now : String) :
    (deep_crawl_nur h r c ts now).aggregate =
      save_final_dataset
        (runStream c (initRunState h) r).1.extractor.dataset ts now := rfl

lemma deep_crawl_finalState (h : List HistFile) (r : List CrawlResult)
    (c : Nat → String) (ts now : String) :
    (deep_crawl_nur h r c ts now).finalState =
      (runStream c (initRunState h) r).1 := rfl

lemma initRunState_dataset (h : List HistFile) :
    (initRunState h).extractor.dataset = [] := rfl

lemma initRunState_visited (h : List HistFile) :
    (initRunState h).extractor.visited_urls = h.foldl loadFile [] := rfl

lemma initRunState_counters (h : List HistFile) :
    (initRunState h).result_count = 0 ∧ (initRunState h).success_count = 0 ∧
    (initRunState h).skip_count = 0 := ⟨rfl, rfl, rfl⟩

/-! ## The claims -/

/-- C1: within a single run, a URL delivered more than once (and
passing the URL filter) reaches the extractor and the run buffer at
most once — the extractor-call trace has pairwise-distinct URLs and
the run buffer has pairwise-distinct `url` fields — and any filtered
result whose URL is already in the ledger is processed as exactly one
duplicate skip, leaving the buffer untouched. -/
theorem dedup_completeness_run_buffer (histFiles : List HistFile)
    (results : List CrawlResult) (clock : Nat → String) (ts now : String) :
    ((deep_crawl_nur histFiles results clock ts now).returned.map
        (fun a => a.url)).Nodup ∧
    (extractorCallUrls
        (deep_crawl_nur histFiles results clock ts now).events).Nodup ∧
    ∀ (s : RunState) (r : CrawlResult) (t : String),
      (r.success && r.html.nonEmpty &&
        (inPy "/news/" r.url && endsWithPy r.url ".shtml")) = true →
      r.url ∈ s.extractor.visited_urls →
      processResult s r t =
        ({ s with result_count := s.result_count + 1,
                  skip_count := s.skip_count + 1 },
         [.dupSkip r.url]) := by
  refine ⟨?_, ?_, ?_⟩
  · rw [deep_crawl_returned]
    obtain ⟨Δ, h1, _, _, h4, _⟩ :=
      runStream_dataset clock results (initRunState histFiles)
    rw [h1, initRunState_dataset, List.nil_append]
    exact h4
  · rw [deep_crawl_events]
    exact runStream_calls_nodup clock results (initRunState histFiles)
  · intro s r t hb hm
    rw [Bool.and_eq_true] at hb
    exact processResult_dup hb.1 hb.2 hm

/-- Closed instance of C1: a concrete two-delivery stream, plus a
concrete duplicate-skip step. -/
theorem dedup_completeness_run_buffer_witness :
    ((pageResult.success && pageResult.html.nonEmpty &&
       (inPy "/news/" pageResult.url &&
        endsWithPy pageResult.url ".shtml")) = true ∧
     pageResult.url ∈ seenState.extractor.visited_urls ∧
     ((deep_crawl_nur [] [pageResult, pageResult] fixedClock "TS"
        "NOW").returned.map (fun a => a.url)).Nodup ∧
     processResult seenState pageResult "T" =
       ({ seenState with result_count := seenState.result_count + 1,
                         skip_count := seenState.skip_count + 1 },
        [.dupSkip pageResult.url])) := by
  refine ⟨by decide, by decide, ?_, ?_⟩
  · exact (dedup_completeness_run_buffer [] [pageResult, pageResult]
      fixedClock "TS" "NOW").1
  · exact (dedup_completeness_run_buffer [] [] fixedClock "TS" "NOW").2.2
      seenState pageResult "T" (by decide) (by decide)

/-- C2: in any loop state, the extractor is invoked on a page-fetch
result only if the fetch succeeded, the markup is truthy, the URL
carries the `/news/` path segment and the URL ends in `.shtml`; the
invocation is on that result's URL. -/
theorem url_filter_guards_extractor (s : RunState) (r : CrawlResult)
    (now : String) (u : String)
    (hu : u ∈ extractorCallUrls (processResult s r now).2) :
    r.success = true ∧ r.html.nonEmpty = true ∧
    inPy "/news/" r.url = true ∧ endsWithPy r.url ".shtml" = true ∧
    u = r.url := by
  rcases processResult_cases s r now with
    ⟨hb, heq⟩ | ⟨hb, hm, heq⟩ | ⟨hb, hm, hx, heq⟩ | ⟨data, hb, hm, hx, heq⟩ <;>
    rw [heq] at hu
  · simp [extractorCallUrls] at hu
  · simp [extractorCallUrls] at hu
  · simp only [extractorCallUrls] at hu
    rcases List.mem_cons.mp hu with rfl | hu
    · simp only [Bool.and_eq_true] at hb
      exact ⟨hb.1.1, hb.1.2, hb.2.1, hb.2.2, rfl⟩
    · simp [extractorCallUrls] at hu
  · simp only [List.nil_append] at hu
    rw [extractorCallUrls] at hu
    rcases List.mem_cons.mp hu with rfl | hu
    · simp only [Bool.and_eq_true] at hb
      exact ⟨hb.1.1, hb.1.2, hb.2.1, hb.2.2, rfl⟩
    · rw [extractorCallUrls_txtEvs] at hu
      simp at hu

/-- Closed instance of C2: the extractor call made for a concrete
fresh article result satisfies all four filter conditions. -/
theorem url_filter_guards_extractor_witness :
    (pageResult.url ∈
       extractorCallUrls (processResult freshState pageResult "T").2) ∧
    (pageResult.success = true ∧ pageResult.html.nonEmpty = true ∧
     inPy "/news/" pageResult.url = true ∧
     endsWithPy pageResult.url ".shtml" = true ∧
     pageResult.url = pageResult.url) :=
  ⟨by decide,
   url_filter_guards_extractor freshState pageResult "T" pageResult.url
     (by decide)⟩

/-- C3: for well-formed markup, the extractor returns no record
exactly when both the extracted title and the extracted body are
empty, and any returned record carries exactly the extracted (possibly
empty) title and body for the given URL. -/
theorem extract_content_emptiness_rule (html : Html) (url now : String)
    (hwf : html.wf) :
    (extract_content html url now = none ↔
      (html.titleElem.getD "" = "" ∧ html.bodyElem.getD "" = "")) ∧
    ∀ data, extract_content html url now = some data →
      data.url = url ∧ data.title = html.titleElem.getD "" ∧
      data.content = html.bodyElem.getD "" := by
  refine ⟨extract_content_none_iff hwf, ?_⟩
  intro data h
  obtain ⟨p1, p2, p3, _⟩ := extract_content_some_props h
  exact ⟨p1, p2, p3⟩

/-- Closed instance of C3: a page with only a body element still
yields a record (empty title, non-empty body); a page with neither
element yields none. -/
theorem extract_content_emptiness_rule_witness :
    (Html.wf { nonEmpty := true, titleElem := none,
               bodyElem := some "body only" }) ∧
    (extract_content
        { nonEmpty := true, titleElem := none, bodyElem := some "body only" }
        "u" "t" = none ↔
      ((none : Option String).getD "" = "" ∧
       (some "body only").getD "" = "")) := by
  refine ⟨by intro h; simp at h, ?_⟩
  exact (extract_content_emptiness_rule
    { nonEmpty := true, titleElem := none, bodyElem := some "body only" }
    "u" "t" (by intro h; simp at h)).1

/-- C4: an aggregate file is written exactly when the run buffer is
non-empty at finalization; the written document's `total_articles`
equals the length of its `articles` list, and every article's
`content_length` equals the character length of its `content`. -/
theorem aggregate_file_integrity (histFiles : List HistFile)
    (results : List CrawlResult) (clock : Nat → String) (ts now : String) :
    ((deep_crawl_nur histFiles results clock ts now).aggregate = none ↔
      (deep_crawl_nur histFiles results clock ts now).returned = []) ∧
    ∀ p d, (deep_crawl_nur histFiles results clock ts now).aggregate =
        some (p, d) →
      d.total_articles = d.articles.length ∧
      ∀ a ∈ d.articles, a.content_length = a.content.length := by
  constructor
  · rw [deep_crawl_aggregate, deep_crawl_returned]
    exact save_final_dataset_none_iff
  · intro p d hagg
    rw [deep_crawl_aggregate] at hagg
    obtain ⟨harts, htot⟩ := save_final_dataset_some_props hagg
    refine ⟨htot, ?_⟩
    intro a ha
    rw [harts] at ha
    obtain ⟨Δ, h1, _, _, _, h5⟩ :=
      runStream_dataset clock results (initRunState histFiles)
    rw [h1, initRunState_dataset, List.nil_append] at ha
    exact (h5 a ha).1

/-- Closed instance of C4: the concrete one-article run writes exactly
the expected aggregate document, whose counters and lengths agree. -/
theorem aggregate_file_integrity_witness :
    ((deep_crawl_nur [] [pageResult] fixedClock "TS" "NOW").aggregate =
       some ("nur_dataset_TS.json", sampleDataset)) ∧
    (sampleDataset.total_articles = sampleDataset.articles.length ∧
     ∀ a ∈ sampleDataset.articles, a.content_length = a.content.length) :=
  ⟨by decide,
   (aggregate_file_integrity [] [pageResult] fixedClock "TS" "NOW").2
     "nur_dataset_TS.json" sampleDataset (by decide)⟩

/-- C5: the incremental writer skips exactly the records with an empty
title; for a non-empty title it produces one artifact named by the
sanitized 50-character title prefix plus `.txt`, containing the title
line, a blank line, then the body; and over a whole run the txt writes
are precisely the writes for the buffered records, so an empty-titled
record stays in the buffer (and hence the aggregate) with no artifact. -/
theorem incremental_writer_contract (histFiles : List HistFile)
    (results : List CrawlResult) (clock : Nat → String) (ts now : String) :
    (∀ data : ArticleRecord,
      (save_single_txt data = none ↔ data.title = "") ∧
      ∀ fn c, save_single_txt data = some (fn, c) →
        fn = sanitizeTitle data.title ++ ".txt" ∧
        (sanitizeTitle data.title).length ≤ 50 ∧
        c = data.title ++ "\n\n" ++ data.content) ∧
    txtWriteEvents (deep_crawl_nur histFiles results clock ts now).events =
      (deep_crawl_nur histFiles results clock ts
        now).returned.filterMap save_single_txt := by
  constructor
  · intro data
    constructor
    · unfold save_single_txt
      split
      · simpa
      · rename_i hne
        simpa using hne
    · intro fn c h
      unfold save_single_txt at h
      split at h
      · exact absurd h (by simp)
      · rw [Option.some_inj] at h
        injection h with hfn hc
        refine ⟨hfn.symm, ?_, hc.symm⟩
        have hlen : (sanitizeTitle data.title).length =
            ((data.title.data.map fun ch =>
              if illegalFilenameChar ch then '_' else ch).take 50).length :=
          rfl
        rw [hlen, List.length_take]
        exact min_le_left _ _
  · rw [deep_crawl_events, deep_crawl_returned]
    obtain ⟨Δ, h1, _, h3, _, _⟩ :=
      runStream_dataset clock results (initRunState histFiles)
    rw [h3, h1, initRunState_dataset, List.nil_append]

/-- Closed instance of C5: the artifact written for `sampleRecord`,
and the write trace of a concrete run. -/
theorem incremental_writer_contract_witness :
    (save_single_txt sampleRecord =
       some ("Tor tarix.txt", "Tor tarix\n\nMazmun bir\nMazmun eki")) ∧
    ("Tor tarix.txt" = sanitizeTitle sampleRecord.title ++ ".txt" ∧
     (sanitizeTitle sampleRecord.title).length ≤ 50 ∧
     "Tor tarix\n\nMazmun bir\nMazmun eki" =
       sampleRecord.title ++ "\n\n" ++ sampleRecord.content) ∧
    txtWriteEvents (deep_crawl_nur [] [pageResult, blankResult] fixedClock
        "TS" "NOW").events =
      (deep_crawl_nur [] [pageResult, blankResult] fixedClock "TS"
        "NOW").returned.filterMap save_single_txt :=
  ⟨by decide,
   ((incremental_writer_contract [] [] fixedClock "TS" "NOW").1
       sampleRecord).2
     "Tor tarix.txt" "Tor tarix\n\nMazmun bir\nMazmun eki" (by decide),
   (incremental_writer_contract [] [pageResult, blankResult] fixedClock
     "TS" "NOW").2⟩

/-- C6: seeding a second run's ledger from the aggregate of a first
run over the same page set makes the second run capture nothing: its
buffer stays empty, its success counter reports zero, no aggregate is
written, and no URL captured by the first run ever reaches the
extractor in the second run. -/
theorem second_run_idempotence (results : List CrawlResult)
    (clock1 clock2 : Nat → String) (ts1 now1 ts2 now2 : String) :
    (secondRun results clock1 clock2 ts1 now1 ts2 now2).returned = [] ∧
    (secondRun results clock1 clock2 ts1 now1 ts2 now2).successes = 0 ∧
    (secondRun results clock1 clock2 ts1 now1 ts2 now2).aggregate = none ∧
    ∀ u ∈ extractorCallUrls
        (secondRun results clock1 clock2 ts1 now1 ts2 now2).events,
      u ∉ (deep_crawl_nur [] results clock1 ts1 now1).returned.map
        (fun a => a.url) := by
  have hseed : ∀ u, u ∈ (initRunState
      [HistFile.parsed true
        (((deep_crawl_nur [] results clock1 ts1 now1).returned.map
            (fun a => a.url)).map some)]).extractor.visited_urls ↔
      u ∈ (deep_crawl_nur [] results clock1 ts1 now1).returned.map
        (fun a => a.url) := by
    intro u
    rw [initRunState_visited]
    show u ∈ addArticleUrls [] _ ↔ _
    rw [mem_addArticleUrls_map_some]
    simp
  have hinv : ∀ u, u ∈ (initRunState
      [HistFile.parsed true
        (((deep_crawl_nur [] results clock1 ts1 now1).returned.map
            (fun a => a.url)).map some)]).extractor.visited_urls ↔
      (u ∈ (initRunState []).extractor.visited_urls ∨
       u ∈ ((runStream clock1 (initRunState []) results).1.extractor.dataset.map
             (fun a => a.url))) := by
    intro u
    rw [hseed, deep_crawl_returned]
    constructor
    · exact Or.inr
    · rintro (hu | hu)
      · rw [initRunState_visited] at hu
        simp [List.foldl] at hu
      · exact hu
  have hmain : (runStream clock2 (initRunState
      [HistFile.parsed true
        (((deep_crawl_nur [] results clock1 ts1 now1).returned.map
            (fun a => a.url)).map some)]) results).1.extractor.dataset = [] :=
    runStream_second_run clock1 clock2 results (initRunState [])
      _ (initRunState_dataset _) hinv
  refine ⟨?_, ?_, ?_, ?_⟩
  · rw [show (secondRun results clock1 clock2 ts1 now1 ts2 now2).returned =
        (runStream clock2 (initRunState
          [HistFile.parsed true
            (((deep_crawl_nur [] results clock1 ts1 now1).returned.map
                (fun a => a.url)).map some)])
          results).1.extractor.dataset from rfl]
    exact hmain
  · obtain ⟨Δ, h1, h2, _⟩ := runStream_dataset clock2 results (initRunState
      [HistFile.parsed true
        (((deep_crawl_nur [] results clock1 ts1 now1).returned.map
            (fun a => a.url)).map some)])
    rw [hmain, initRunState_dataset, List.nil_append] at h1
    rw [show (secondRun results clock1 clock2 ts1 now1 ts2 now2).successes =
        (runStream clock2 (initRunState
          [HistFile.parsed true
            (((deep_crawl_nur [] results clock1 ts1 now1).returned.map
                (fun a => a.url)).map some)])
          results).1.success_count from rfl]
    rw [h2, ← h1]
    rfl
  · rw [show (secondRun results clock1 clock2 ts1 now1 ts2 now2).aggregate =
        save_final_dataset (runStream clock2 (initRunState
          [HistFile.parsed true
            (((deep_crawl_nur [] results clock1 ts1 now1).returned.map
                (fun a => a.url)).map some)])
          results).1.extractor.dataset ts2 now2 from rfl]
    rw [hmain]
    rfl
  · intro u hu hD
    rw [show (secondRun results clock1 clock2 ts1 now1 ts2 now2).events =
        (runStream clock2 (initRunState
          [HistFile.parsed true
            (((deep_crawl_nur [] results clock1 ts1 now1).returned.map
                (fun a => a.url)).map some)])
          results).2 from rfl] at hu
    have hcall := runStream_calls clock2 results _ u hu
    exact hcall.1 ((hseed u).mpr hD)

/-- Closed instance of C6: re-crawling the one-article page set with a
ledger seeded from the first run captures nothing. -/
theorem second_run_idempotence_witness :
    (secondRun [pageResult] fixedClock fixedClock "TS" "NOW" "TS2"
      "NOW2").returned = [] ∧
    (secondRun [pageResult] fixedClock fixedClock "TS" "NOW" "TS2"
      "NOW2").successes = 0 :=
  ⟨(second_run_idempotence [pageResult] fixedClock fixedClock "TS" "NOW"
      "TS2" "NOW2").1,
   (second_run_idempotence [pageResult] fixedClock fixedClock "TS" "NOW"
      "TS2" "NOW2").2.1⟩

/-- C7: during seeding, a historical file whose open or parse raises
is skipped with no effect and no exception — deleting it from the scan
changes nothing — and the URLs of every well-formed file (an
`articles` list in which every article carries its `url`) all end up
in the ledger. -/
theorem seeding_best_effort_recovery :
    (∀ (ex : NurContentExtractor) (fs1 fs2 : List HistFile),
       load_existing_urls ex (fs1 ++ HistFile.unreadable :: fs2) =
         load_existing_urls ex (fs1 ++ fs2)) ∧
    ∀ (ex : NurContentExtractor) (files : List HistFile)
      (urls : List String),
      HistFile.parsed true (urls.map some) ∈ files →
      ∀ u ∈ urls, u ∈ (load_existing_urls ex files).visited_urls := by
  constructor
  · intro ex fs1 fs2
    unfold load_existing_urls
    rw [foldl_loadFile_unreadable]
  · intro ex files urls hf u hu
    obtain ⟨l1, l2, rfl⟩ := List.append_of_mem hf
    show u ∈ (l1 ++ HistFile.parsed true (urls.map some) :: l2).foldl
      loadFile ex.visited_urls
    rw [List.foldl_append, List.foldl_cons]
    apply mem_foldl_loadFile_of_mem
    exact (mem_addArticleUrls_map_some urls).mpr (Or.inr hu)

/-- Closed instance of C7: an unreadable file sitting in front of a
well-formed file neither aborts seeding nor blocks the good file's
URL. -/
theorem seeding_best_effort_recovery_witness :
    (HistFile.parsed true (["https://www.nur.cn/news/9.shtml"].map some) ∈
      ([HistFile.unreadable,
        HistFile.parsed true (["https://www.nur.cn/news/9.shtml"].map some)] :
        List HistFile)) ∧
    "https://www.nur.cn/news/9.shtml" ∈
      (["https://www.nur.cn/news/9.shtml"] : List String) ∧
    load_existing_urls initExtractor [HistFile.unreadable] =
      load_existing_urls initExtractor [] ∧
    "https://www.nur.cn/news/9.shtml" ∈
      (load_existing_urls initExtractor
        [HistFile.unreadable,
         HistFile.parsed true
           (["https://www.nur.cn/news/9.shtml"].map some)]).visited_urls := by
  refine ⟨by decide, by decide, ?_, ?_⟩
  · exact seeding_best_effort_recovery.1 initExtractor [] []
  · exact seeding_best_effort_recovery.2 initExtractor _
      ["https://www.nur.cn/news/9.shtml"] (by decide) _ (by decide)

/-- C8 counterexample: a filtered URL whose extraction yields no
record (both elements absent) IS entered into the dedup ledger —
`is_duplicate` marks the URL before `extract_content` runs — even
though the run buffer stays empty. This refutes the claim that such a
URL is not entered into the ledger. -/
theorem ledger_holds_empty_extraction_url :
    extract_content blankResult.html blankResult.url (fixedClock 0) = none ∧
    (deep_crawl_nur [] [blankResult] fixedClock "TS" "NOW").returned = [] ∧
    blankResult.url ∈ (deep_crawl_nur [] [blankResult] fixedClock "TS"
      "NOW").finalState.extractor.visited_urls :=
  ⟨by decide, by decide, by decide⟩

/-- C8 (amended): a filtered URL whose extraction yields no record is
still marked in the in-memory visited set (check-and-mark precedes
extraction) while the run buffer is left unchanged; but such a URL is
never persisted — every article in a written aggregate file has a
non-empty title or body — so ledgers seeded from aggregate files hold
only URLs of captured articles. -/
theorem ledger_persists_only_captured (histFiles : List HistFile)
    (results : List CrawlResult) (clock : Nat → String) (ts now : String) :
    (∀ (s : RunState) (r : CrawlResult) (t : String),
       (r.success && r.html.nonEmpty &&
         (inPy "/news/" r.url && endsWithPy r.url ".shtml")) = true →
       r.url ∉ s.extractor.visited_urls →
       extract_content r.html r.url t = none →
       (processResult s r t).1.extractor.dataset = s.extractor.dataset ∧
       r.url ∈ (processResult s r t).1.extractor.visited_urls) ∧
    ∀ p d, (deep_crawl_nur histFiles results clock ts now).aggregate =
        some (p, d) →
      ∀ a ∈ d.articles, ¬(a.title = "" ∧ a.content = "") := by
  constructor
  · intro s r t hb hm hx
    rw [Bool.and_eq_true] at hb
    rw [processResult_fresh_none hb.1 hb.2 hm hx]
    exact ⟨rfl, List.mem_cons_self _ _⟩
  · intro p d hagg
    rw [deep_crawl_aggregate] at hagg
    obtain ⟨harts, _⟩ := save_final_dataset_some_props hagg
    intro a ha
    rw [harts] at ha
    obtain ⟨Δ, h1, _, _, _, h5⟩ :=
      runStream_dataset clock results (initRunState histFiles)
    rw [h1, initRunState_dataset, List.nil_append] at ha
    exact (h5 a ha).2.1

/-- Closed instance of the amended C8. -/
theorem ledger_persists_only_captured_witness :
    ((blankResult.success && blankResult.html.nonEmpty &&
       (inPy "/news/" blankResult.url &&
        endsWithPy blankResult.url ".shtml")) = true ∧
     blankResult.url ∉ freshState.extractor.visited_urls ∧
     extract_content blankResult.html blankResult.url "T" = none) ∧
    ((processResult freshState blankResult "T").1.extractor.dataset =
       freshState.extractor.dataset ∧
     blankResult.url ∈
       (processResult freshState blankResult "T").1.extractor.visited_urls) ∧
    ((deep_crawl_nur [] [pageResult] fixedClock "TS" "NOW").aggregate =
       some ("nur_dataset_TS.json", sampleDataset) ∧
     ∀ a ∈ sampleDataset.articles, ¬(a.title = "" ∧ a.content = "")) := by
  refine ⟨⟨by decide, by decide, by decide⟩, ?_, by decide, ?_⟩
  · exact (ledger_persists_only_captured [] [] fixedClock "TS" "NOW").1
      freshState blankResult "T" (by decide) (by decide) (by decide)
  · exact (ledger_persists_only_captured [] [pageResult] fixedClock "TS"
      "NOW").2 "nur_dataset_TS.json" sampleDataset (by decide)

/-- C9: every run ends by delivering the three summary counters —
pages seen (one per delivered result), successful extractions (the
buffer length), duplicate skips (one per duplicate-skip event) — and
the run buffer itself, with no condition on having captured
anything. -/
theorem done_reports_counters_and_buffer (histFiles : List HistFile)
    (results : List CrawlResult) (clock : Nat → String) (ts now : String) :
    (deep_crawl_nur histFiles results clock ts now).pages =
      results.length ∧
    (deep_crawl_nur histFiles results clock ts now).successes =
      (deep_crawl_nur histFiles results clock ts now).returned.length ∧
    (deep_crawl_nur histFiles results clock ts now).dupSkips =
      (dupSkipUrls
        (deep_crawl_nur histFiles results clock ts now).events).length ∧
    (deep_crawl_nur histFiles results clock ts now).returned =
      (deep_crawl_nur histFiles results clock ts
        now).finalState.extractor.dataset := by
  refine ⟨?_, ?_, ?_, rfl⟩
  · rw [deep_crawl_pages, runStream_pages]
    exact Nat.zero_add _
  · rw [deep_crawl_successes, deep_crawl_returned]
    obtain ⟨Δ, h1, h2, _⟩ :=
      runStream_dataset clock results (initRunState histFiles)
    rw [h1, h2, initRunState_dataset, List.nil_append]
    exact Nat.zero_add _
  · rw [deep_crawl_dupSkips, deep_crawl_events, runStream_skips]
    exact Nat.zero_add _

/-- C10: after any prefix of the stream the success counter equals
the run buffer's length (both start at zero), and consequently the
aggregate file's `total_articles` equals the success count the run
reports. -/
theorem success_count_equals_buffer_length (histFiles : List HistFile)
    (results : List CrawlResult) (clock : Nat → String) (ts now : String)
    (n : Nat) :
    (runStream clock (initRunState histFiles)
        (results.take n)).1.success_count =
      (runStream clock (initRunState histFiles)
        (results.take n)).1.extractor.dataset.length ∧
    ∀ p d, (deep_crawl_nur histFiles results clock ts now).aggregate =
        some (p, d) →
      d.total_articles =
        (deep_crawl_nur histFiles results clock ts now).successes := by
  constructor
  · obtain ⟨Δ, h1, h2, _⟩ :=
      runStream_dataset clock (results.take n) (initRunState histFiles)
    rw [h1, h2, initRunState_dataset, List.nil_append]
    exact Nat.zero_add _
  · intro p d hagg
    rw [deep_crawl_aggregate] at hagg
    obtain ⟨harts, htot⟩ := save_final_dataset_some_props hagg
    rw [htot, harts, deep_crawl_successes]
    obtain ⟨Δ, h1, h2, _⟩ :=
      runStream_dataset clock results (initRunState histFiles)
    rw [h1, h2, initRunState_dataset, List.nil_append]
    exact (Nat.zero_add _).symm

/-- Closed instance of C10. -/
theorem success_count_equals_buffer_length_witness :
    ((deep_crawl_nur [] [pageResult] fixedClock "TS" "NOW").aggregate =
       some ("nur_dataset_TS.json", sampleDataset)) ∧
    sampleDataset.total_articles =
      (deep_crawl_nur [] [pageResult] fixedClock "TS" "NOW").successes :=
  ⟨by decide,
   (success_count_equals_buffer_length [] [pageResult] fixedClock "TS"
     "NOW" 1).2 "nur_dataset_TS.json" sampleDataset (by decide)⟩
